import Mathlib

/-!
Verification development for the VesselVerse STAPLE consensus pipeline
(src/src/core/staple.py, src/src/core/dataset.py, src/scripts_py/compute_staple.py).

Volumes are modelled as flattened lists: a probability map is a List of
rationals, a binary mask a List of naturals.  Floating-point values are
modelled by rationals; the floating-point square root used by np.std is
modelled by qSqrt, which is exact on perfect squares (every concrete input
used in the theorems below has a perfect-square variance, so the modelling
gap does not affect any stated result).  Operations delegated to the
SimpleITK library (STAPLE itself, morphology, connected components,
principal axes) are parameters of the embedding, bundled in SitkOps.
NaN semantics of numpy (mean or std of an empty selection, and comparisons
against NaN being false) are modelled with Option: none stands for NaN.
-/

/-- Indexing with a default value, used for all pointwise statements. -/
def nth (d : α) : List α → ℕ → α
  | [], _ => d
  | x :: _, 0 => x
  | _ :: xs, n + 1 => nth d xs n

theorem nth_map (d : α) (e : β) (f : α → β) (l : List α) (i : ℕ) (h : i < l.length) :
    nth e (l.map f) i = f (nth d l i) := by
  induction l generalizing i with
  | nil => simp at h
  | cons x xs ih =>
    cases i with
    | zero => rfl
    | succ n => exact ih n (by simpa using Nat.lt_of_succ_lt_succ h)

theorem nth_zipWith (da : α) (db : β) (dc : γ) (f : α → β → γ)
    (a : List α) (b : List β) (i : ℕ) (ha : i < a.length) (hb : i < b.length) :
    nth dc (List.zipWith f a b) i = f (nth da a i) (nth db b i) := by
  induction a generalizing b i with
  | nil => simp at ha
  | cons x xs ih =>
    cases b with
    | nil => simp at hb
    | cons y ys =>
      cases i with
      | zero => rfl
      | succ n =>
        exact ih ys n (by simpa using Nat.lt_of_succ_lt_succ ha)
          (by simpa using Nat.lt_of_succ_lt_succ hb)

theorem nth_replicate (d : α) (x : α) (n i : ℕ) (h : i < n) :
    nth d (List.replicate n x) i = x := by
  induction n generalizing i with
  | zero => simp at h
  | succ m ih =>
    cases i with
    | zero => rfl
    | succ k => exact ih k (Nat.lt_of_succ_lt_succ h)

theorem nth_mem (d : α) (l : List α) (i : ℕ) (h : i < l.length) : nth d l i ∈ l := by
  induction l generalizing i with
  | nil => simp at h
  | cons x xs ih =>
    cases i with
    | zero => simp [nth]
    | succ n => exact List.mem_cons_of_mem _ (ih n (by simpa using Nat.lt_of_succ_lt_succ h))

/-- Product of a list of rationals, modelling np.prod over the spacing tuple. -/
def prodQ (xs : List ℚ) : ℚ := xs.foldl (fun a b => a * b) 1

/-- Minimum of a list of rationals, modelling np.min; np.min of an empty array
raises, callers below guard emptiness, so the default 0 is never relied on. -/
def minListQ : List ℚ → ℚ
  | [] => 0
  | x :: xs => xs.foldl min x

/-- Maximum of a list of rationals, modelling np.max with the same caveat. -/
def maxListQ : List ℚ → ℚ
  | [] => 0
  | x :: xs => xs.foldl max x

/-- Arithmetic mean, modelling np.mean on a nonempty array. -/
def meanQ (xs : List ℚ) : ℚ := xs.sum / (xs.length : ℚ)

/-- Rational stand-in for the floating-point square root: exact on
perfect-square rationals (in particular qSqrt 0 = 0), an integer
approximation elsewhere. -/
def qSqrt (x : ℚ) : ℚ := ((Nat.sqrt x.num.toNat : ℤ) : ℚ) / ((Nat.sqrt x.den : ℤ) : ℚ)

/-- Population variance, the quantity under the square root in np.std. -/
def varQ (xs : List ℚ) : ℚ := meanQ (xs.map (fun x => (x - meanQ xs) ^ 2))

/-- Population standard deviation, modelling np.std (ddof = 0). -/
def stdQ (xs : List ℚ) : ℚ := qSqrt (varQ xs)

/-- np.mean with NaN-on-empty modelled as none. -/
def meanOpt (xs : List ℚ) : Option ℚ := if xs = [] then none else some (meanQ xs)

/-- np.std with NaN-on-empty modelled as none. -/
def stdOpt (xs : List ℚ) : Option ℚ := if xs = [] then none else some (stdQ xs)

/-- NaN-propagating subtraction on optional rationals. -/
def optSub : Option ℚ → Option ℚ → Option ℚ
  | some a, some b => some (a - b)
  | _, _ => none

/-- NaN-propagating addition on optional rationals. -/
def optAdd : Option ℚ → Option ℚ → Option ℚ
  | some a, some b => some (a + b)
  | _, _ => none

/-- Comparison prob > threshold where the threshold may be NaN (none);
any comparison against NaN is false, as in numpy. -/
def optLt : Option ℚ → ℚ → Bool
  | some t, p => decide (t < p)
  | none, _ => false

/-- Sorted distinct values of a rational array, modelling np.unique. -/
def npUniqueQ (xs : List ℚ) : List ℚ := (List.insertionSort (· ≤ ·) xs).dedup

/-- Sorted distinct values of a natural-valued array, modelling np.unique. -/
def npUniqueN (xs : List ℕ) : List ℕ := (List.insertionSort (· ≤ ·) xs).dedup

/-- Number of voxels carrying a given component label. -/
def countLabel (labels : List ℕ) (lab : ℕ) : ℕ := (labels.filter (fun l => l = lab)).length

/-- Boolean-mask selection prob_array[mask], in index order as in numpy. -/
def maskSelect (mask : List Bool) (xs : List ℚ) : List ℚ :=
  (List.zip mask xs).filterMap (fun p => if p.1 then some p.2 else none)

/-- Median of a list of rationals, modelling np.median on a nonempty array
(average of the two central order statistics for even length). -/
def medianQ (xs : List ℚ) : ℚ :=
  let s := List.insertionSort (· ≤ ·) xs
  let n := s.length
  if n = 0 then 0
  else if n % 2 = 1 then nth 0 s (n / 2)
  else (nth 0 s (n / 2 - 1) + nth 0 s (n / 2)) / 2

/-- Python round: nearest integer, ties to even (the rounding applied by
round() to the kernel radius in enhance_vessel_connectivity). -/
def pyRound (x : ℚ) : ℤ :=
  let f : ℤ := ⌊x⌋
  let r : ℚ := x - (f : ℚ)
  if r < 1 / 2 then f
  else if r > 1 / 2 then f + 1
  else if f % 2 = 0 then f else f + 1

/-- Python int() on a float: truncation toward zero (used for
min_object_size in enhance_vessel_connectivity). -/
def ratTrunc (x : ℚ) : ℤ := if 0 ≤ x then ⌊x⌋ else -⌊-x⌋

/-- The double-precision value of np.pi, as an exact rational. -/
def piQ : ℚ := (884279719003555 : ℚ) / (281474976710656 : ℚ)

/-- Spatial header of an image: voxel dimensions and per-axis physical
spacing (origin and direction cosines are not compared by the code, the
corresponding checks are commented out in verify_spatial_consistency). -/
structure Meta where
  size : List ℕ
  spacing : List ℚ
deriving DecidableEq

/-- A raw image volume: spatial header plus flattened voxel data. -/
structure Img where
  meta : Meta
  data : List ℚ
deriving DecidableEq

/-- A mask volume after binarization: header plus flattened 0/1 data. -/
structure MaskImg where
  meta : Meta
  data : List ℕ
deriving DecidableEq

/-- Error raised by verify_spatial_consistency (all ValueError in Python;
the spec names the dimension and spacing cases SpatialMismatchError). -/
inductive SpatialErr where
  | noSegmentations
  | not3D
  | dimMismatch
  | spacingMismatch
deriving DecidableEq

/-- Pipeline-level error of create_staple_consensus: the N less than 2
guard (InsufficientRatersError in the spec), a mask-reading failure, or a
propagated spatial-consistency failure. -/
inductive PErr where
  | insufficientRaters
  | readErr
  | spatial (e : SpatialErr)
deriving DecidableEq

/-- Operations delegated to the SimpleITK library, treated as parameters of
the embedding: the STAPLE EM filter, the radius-1 preprocessing
(dilate + closing), radius-k dilation and erosion, connected-component
labelling, and the principal-axes query of LabelShapeStatisticsImageFilter
(labels image and component label to list of values). -/
structure SitkOps where
  staple : List (List ℕ) → List ℚ
  preprocess : List ℕ → List ℕ
  dilate : ℤ → List ℕ → List ℕ
  erode : ℤ → List ℕ → List ℕ
  connectedComponents : List ℕ → List ℕ
  principalAxes : List ℕ → ℕ → List ℚ

/-- sitk.BinaryThreshold with lowerThreshold L, upperThreshold infinity,
insideValue 1, outsideValue 0: a voxel is inside iff L is less than or
equal to its value (the comparison is inclusive). -/
def binaryThreshold (lower : ℚ) (vals : List ℚ) : List ℚ :=
  vals.map (fun v => if lower ≤ v then 1 else 0)

/-- sitk.Cast(seg > 0, sitkUInt8): strict positivity to 0/1. -/
def castGt0 (vals : List ℚ) : List ℕ :=
  vals.map (fun v => if 0 < v then 1 else 0)

/-- convert_to_binary_mask (staple.py:534): when more than two distinct
values are present, apply BinaryThreshold at 1.1 first; always finish with
the strict greater-than-zero cast. -/
def convertToBinaryMask (vals : List ℚ) : List ℕ :=
  if (npUniqueQ vals).length > 2 then castGt0 (binaryThreshold (11 / 10) vals)
  else castGt0 vals

/-- verify_segmentation_values (staple.py:349): accept exactly the masks
whose np.unique is [0,1], [0] or [1]; raise otherwise. -/
def verifySegmentationValues (vals : List ℕ) : Except Unit Unit :=
  let u := npUniqueN vals
  if u = [0, 1] ∨ u = [0] ∨ u = [1] then .ok () else .error ()

/-- np.allclose on two spacing tuples with rtol 1/1000 and the numpy
default atol 1/100000000: componentwise abs (a - b) at most
atol + rtol * abs b, b being the reference. -/
def npAllclose (a b : List ℚ) : Bool :=
  a.length = b.length &&
    (List.zip a b).all (fun p =>
      decide (|p.1 - p.2| ≤ 1 / 100000000 + (1 / 1000) * |p.2|))

/-- One iteration of the verify_spatial_consistency loop body: dimensions
first, then spacing. -/
def checkSeg (ref : Meta) (m : Meta) : Except SpatialErr Unit :=
  if m.size ≠ ref.size then .error .dimMismatch
  else if ¬ npAllclose m.spacing ref.spacing then .error .spacingMismatch
  else .ok ()

/-- The per-segmentation loop of verify_spatial_consistency, aborting at
the first failing mask. -/
def checkAllSegs (ref : Meta) : List Meta → Except SpatialErr Unit
  | [] => .ok ()
  | m :: rest =>
    match checkSeg ref m with
    | .error e => .error e
    | .ok _ => checkAllSegs ref rest

/-- verify_spatial_consistency (staple.py:293): empty-list guard, 3D
guard on the reference, then the per-mask dimension and spacing checks. -/
def verifySpatialConsistency (ref : Meta) (segs : List Meta) : Except SpatialErr Unit :=
  if segs = [] then .error .noSegmentations
  else if ref.size.length ≠ 3 then .error .not3D
  else checkAllSegs ref segs

/-- The accumulation vessel_mask += seg over all segmentations, starting
from np.zeros_like(prob_array) (staple.py:243 and staple.py:204). -/
def vesselSum (n : ℕ) (segs : List (List ℕ)) : List ℕ :=
  segs.foldl (fun acc s => List.zipWith (fun a b => a + b) acc s) (List.replicate n 0)

/-- vessel_mask = accumulated sum > 0: the logical OR of the rater masks. -/
def vesselMask (prob : List ℚ) (segs : List (List ℕ)) : List Bool :=
  (vesselSum prob.length segs).map (fun s => decide (0 < s))

/-- compute_optimal_thresholds (staple.py:190): mean minus std over the
candidate voxels and mean plus std over the background voxels, with
NaN (none) when a region is empty. -/
def computeOptimalThresholds (prob : List ℚ) (segs : List (List ℕ)) :
    Option ℚ × Option ℚ :=
  let mask := vesselMask prob segs
  let vesselProbs := maskSelect mask prob
  let nonVesselProbs := maskSelect (mask.map not) prob
  (optSub (meanOpt vesselProbs) (stdOpt vesselProbs),
   optAdd (meanOpt nonVesselProbs) (stdOpt nonVesselProbs))

/-- adaptive_staple_threshold (staple.py:236): per-voxel threshold chosen
by the vessel mask, then the strict comparison prob > threshold, false
against NaN. -/
def adaptiveStapleThreshold (prob : List ℚ) (segs : List (List ℕ)) : List ℕ :=
  let mask := vesselMask prob segs
  let t := computeOptimalThresholds prob segs
  List.zipWith (fun b p => if optLt (if b then t.1 else t.2) p then 1 else 0) mask prob

/-- The fixed-mode branch of create_staple_consensus (staple.py:620):
sitk.Cast(consensus_prob > confidence_threshold, sitkUInt8). -/
def fixedThreshold (prob : List ℚ) (t : ℚ) : List ℕ :=
  prob.map (fun p => if t < p then 1 else 0)

/-- The kernel radius of enhance_vessel_connectivity (staple.py:121):
int(round(vessel_radius_mm / min(spacing))). -/
def kernelRadiusVoxels (radiusMm : ℚ) (spacing : List ℚ) : ℤ :=
  pyRound (radiusMm / minListQ spacing)

/-- The minimum object size of enhance_vessel_connectivity (staple.py:126):
int(pi * radius^2 * length / voxel_volume), truncating toward zero. -/
def minObjectSize (radiusMm minLengthMm : ℚ) (spacing : List ℚ) : ℤ :=
  ratTrunc (piQ * radiusMm ^ 2 * minLengthMm / prodQ spacing)

/-- RelabelComponentImageFilter with SetMinimumObjectSize followed by the
cast final > 0: a voxel survives iff it is labelled and its component has
at least minSize voxels (components smaller than the minimum are removed). -/
def relabelRemoveSmallBinary (minSize : ℤ) (labels : List ℕ) : List ℕ :=
  labels.map (fun l => if l ≠ 0 ∧ minSize ≤ (countLabel labels l : ℤ) then 1 else 0)

/-- enhance_vessel_connectivity (staple.py:109): dilate then erode with the
computed kernel radius, label connected components, drop the small ones,
binarize. -/
def enhanceVesselConnectivity (ops : SitkOps) (mask : List ℕ) (spacing : List ℚ)
    (radiusMm minLengthMm : ℚ) : List ℕ :=
  let k := kernelRadiusVoxels radiusMm spacing
  let connected := ops.erode k (ops.dilate k mask)
  let labels := ops.connectedComponents connected
  relabelRemoveSmallBinary (minObjectSize radiusMm minLengthMm spacing) labels

/-- The physical size reported by LabelShapeStatisticsImageFilter for a
component: voxel count times voxel volume, in cubic millimetres.
Modelled from the SimpleITK documentation of GetPhysicalSize (the filter
itself is external library code). -/
def sitkGetPhysicalSize (count : ℕ) (spacing : List ℚ) : ℚ :=
  (count : ℚ) * prodQ spacing

/-- The per-component volume computed by analyze_vessel_characteristics
(staple.py:34): volume_voxels = GetPhysicalSize(label), then
volume_mm3 = volume_voxels * np.prod(spacing). -/
def componentVolumeMm3 (count : ℕ) (spacing : List ℚ) : ℚ :=
  sitkGetPhysicalSize count spacing * prodQ spacing

/-- Per-segmentation statistics collected by analyze_vessel_characteristics. -/
structure SegStats where
  medianVolume : ℚ
  medianDiameter : ℚ
  medianLength : ℚ
  minVolume : ℚ
  minDiameter : ℚ
  minLength : ℚ
deriving DecidableEq

/-- The aggregate recommendations of analyze_vessel_characteristics. -/
structure VesselStats where
  radiusMm : ℚ
  minLengthMm : ℚ
  minVolumeMm3 : ℚ
deriving DecidableEq

/-- The distinct nonzero labels of a component image, modelling
GetLabels() of LabelShapeStatisticsImageFilter. -/
def componentLabels (labels : List ℕ) : List ℕ :=
  (npUniqueN labels).filter (fun l => l ≠ 0)

/-- The loop body of analyze_vessel_characteristics for one segmentation
(staple.py:18): connected components, per-component volume and axis
statistics; np.min raises on a component-free mask, modelled as error. -/
def segStat (ops : SitkOps) (spacing : List ℚ) (seg : List ℕ) : Except Unit SegStats :=
  let labels := ops.connectedComponents seg
  let labs := componentLabels labels
  if labs = [] then .error ()
  else
    let volumes := labs.map (fun lab => componentVolumeMm3 (countLabel labels lab) spacing)
    let diameters := labs.map (fun lab => minListQ (ops.principalAxes labels lab) * minListQ spacing)
    let lengths := labs.map (fun lab => maxListQ (ops.principalAxes labels lab) * minListQ spacing)
    .ok ⟨medianQ volumes, medianQ diameters, medianQ lengths,
         minListQ volumes, minListQ diameters, minListQ lengths⟩

/-- analyze_vessel_characteristics (staple.py:10): per-segmentation
statistics, then the median aggregation of staple.py:56. -/
def analyzeVesselCharacteristics (ops : SitkOps) (segsData : List (List ℕ))
    (spacing : List ℚ) : Except Unit VesselStats := do
  let stats ← segsData.mapM (segStat ops spacing)
  return ⟨medianQ (stats.map (fun s => s.medianDiameter / 2)),
          medianQ (stats.map (fun s => s.minLength)),
          medianQ (stats.map (fun s => s.minVolume))⟩

/-- sitk.Image.CopyInformation from the original image (staple.py:591):
copies the spatial header onto the mask; SimpleITK requires the voxel
dimensions to match and throws otherwise, which the surrounding try block
turns into a reading error. -/
def copyInformationE (orig : Meta) (m : MaskImg) : Except Unit MaskImg :=
  if m.meta.size = orig.size then .ok ⟨orig, m.data⟩ else .error ()

/-- The mask-reading loop of create_staple_consensus (staple.py:581):
paths that do not resolve (none) are skipped with a printed message;
readable masks are binarized, value-checked and aligned to the original
header; any failure inside the try block aborts with an error. -/
def readSegsE (orig : Meta) : List (Option Img) → Except Unit (List MaskImg)
  | [] => .ok []
  | none :: rest => readSegsE orig rest
  | some raw :: rest =>
    let m := convertToBinaryMask raw.data
    match verifySegmentationValues m with
    | .error _ => .error ()
    | .ok _ =>
      match copyInformationE orig ⟨raw.meta, m⟩ with
      | .error _ => .error ()
      | .ok seg =>
        match readSegsE orig rest with
        | .error e => .error e
        | .ok segs => .ok (seg :: segs)

/-- The preprocessing choice of create_staple_consensus (staple.py:609). -/
def pipelinePreData (ops : SitkOps) (doPre : Bool) (segsData : List (List ℕ)) :
    List (List ℕ) :=
  if doPre then segsData.map ops.preprocess else segsData

/-- The thresholding stage of create_staple_consensus (staple.py:620). -/
def thresholdStage (prob : List ℚ) (preData : List (List ℕ)) (t : ℚ)
    (doAdapt : Bool) : List ℕ :=
  if doAdapt then adaptiveStapleThreshold prob preData else fixedThreshold prob t

/-- The pure computation performed by create_staple_consensus once the
masks are read and validated: preprocess, STAPLE, threshold, and the
guarded enhancement block of staple.py:623 whose failure leaves the
thresholded consensus untouched. -/
def consensusBinary (ops : SitkOps) (spacing : List ℚ) (segsData : List (List ℕ))
    (t : ℚ) (doPre doAdapt doEnh : Bool) : List ℕ :=
  let preData := pipelinePreData ops doPre segsData
  let prob := ops.staple preData
  let binary := thresholdStage prob preData t doAdapt
  if doEnh then
    match analyzeVesselCharacteristics ops preData spacing with
    | .error _ => binary
    | .ok st => enhanceVesselConnectivity ops binary spacing st.radiusMm st.minLengthMm
  else binary

/-- create_staple_consensus (staple.py:556): fewer than two supplied paths
raise, unresolved paths are skipped, zero readable masks return None
without error, then spatial validation and the consensus computation. -/
def createStapleConsensus (ops : SitkOps) (orig : Img) (segPaths : List (Option Img))
    (t : ℚ) (doPre doAdapt doEnh : Bool) : Except PErr (Option (List ℕ)) :=
  if segPaths.length < 2 then .error .insufficientRaters
  else
    match readSegsE orig.meta segPaths with
    | .error _ => .error .readErr
    | .ok segs =>
      if segs = [] then .ok none
      else
        match verifySpatialConsistency orig.meta (segs.map MaskImg.meta) with
        | .error e => .error (.spatial e)
        | .ok _ =>
          .ok (some (consensusBinary ops orig.meta.spacing (segs.map MaskImg.data)
            t doPre doAdapt doEnh))

/-- The confidence threshold handed to the pipeline by the orchestration
script (compute_staple.py:104): the staple_params value when configured,
with the fallback 0.8. -/
def resolveConfidenceThreshold (configured : Option ℚ) : ℚ :=
  configured.getD (4 / 5)

/-- Normalization as worded by the claim for C7: with more than two
distinct values, foreground iff value strictly greater than 1.1;
otherwise foreground iff value strictly greater than 0. -/
def specConvertStrict (vals : List ℚ) : List ℕ :=
  if (npUniqueQ vals).length > 2 then
    vals.map (fun v => if 11 / 10 < v then 1 else 0)
  else vals.map (fun v => if 0 < v then 1 else 0)

/-- Normalization as amended: the 1.1 cut is inclusive (foreground iff the
value is at least 1.1), matching sitk.BinaryThreshold. -/
def specConvertGe (vals : List ℚ) : List ℕ :=
  if (npUniqueQ vals).length > 2 then
    vals.map (fun v => if 11 / 10 ≤ v then 1 else 0)
  else vals.map (fun v => if 0 < v then 1 else 0)

/-- Per-component volume as worded by the spec for C6:
volume_mm3 = voxel_count times the product of the spacing. -/
def specComponentVolume (count : ℕ) (spacing : List ℚ) : ℚ :=
  (count : ℚ) * prodQ spacing

/-- Vessel enhancement as worded by the claim for C5: closing with kernel
radius round(radius / min spacing), then every component whose voxel count
is below round(pi * radius^2 * minLength / voxelVolume) is zeroed out. -/
def specEnhanceRound (ops : SitkOps) (mask : List ℕ) (spacing : List ℚ)
    (radiusMm minLengthMm : ℚ) : List ℕ :=
  let k := pyRound (radiusMm / minListQ spacing)
  let labels := ops.connectedComponents (ops.erode k (ops.dilate k mask))
  let minSize := pyRound (piQ * radiusMm ^ 2 * minLengthMm / prodQ spacing)
  labels.map (fun l =>
    if l = 0 then 0 else if (countLabel labels l : ℤ) < minSize then 0 else 1)

/-- Vessel enhancement as amended: identical wording except that the
minimum object size is truncated toward zero (Python int), as the code
does, rather than rounded. -/
def specEnhanceTrunc (ops : SitkOps) (mask : List ℕ) (spacing : List ℚ)
    (radiusMm minLengthMm : ℚ) : List ℕ :=
  let k := pyRound (radiusMm / minListQ spacing)
  let labels := ops.connectedComponents (ops.erode k (ops.dilate k mask))
  let minSize := ratTrunc (piQ * radiusMm ^ 2 * minLengthMm / prodQ spacing)
  labels.map (fun l =>
    if l = 0 then 0 else if (countLabel labels l : ℤ) < minSize then 0 else 1)

/-- Spatial congruence of one mask header with the reference as amended
for C2: equal voxel dimensions, and each spacing component within the
numpy allclose envelope, 1e-8 absolute plus 0.1 percent of the reference
component. -/
def specSpatialOK (ref : Meta) (m : Meta) : Prop :=
  m.size = ref.size ∧
    ∀ j, j < ref.spacing.length →
      |nth 0 m.spacing j - nth 0 ref.spacing j| ≤
        1 / 100000000 + (1 / 1000) * |nth 0 ref.spacing j|

/-- Concrete SimpleITK stand-in used by closed witnesses and
counterexamples: a constant STAPLE output, identity morphology, and the
mask itself as its component labelling. -/
def constOps (f : List (List ℕ) → List ℚ) : SitkOps :=
  ⟨f, id, fun _ m => m, fun _ m => m, id, fun _ _ => [1]⟩

attribute [local semireducible] Rat.mul Rat.add Rat.inv Rat.sub

/-- Decidable equality for Except values, needed to evaluate the pipeline
at concrete inputs. -/
instance instDecEqExcept {ε α : Type} [DecidableEq ε] [DecidableEq α] :
    DecidableEq (Except ε α) := fun
  | .ok a, .ok b =>
    if h : a = b then .isTrue (by rw [h]) else .isFalse (by simp [h])
  | .ok _, .error _ => .isFalse (by simp)
  | .error _, .ok _ => .isFalse (by simp)
  | .error a, .error b =>
    if h : a = b then .isTrue (by rw [h]) else .isFalse (by simp [h])

/-- C1 counterexample: in the base configuration driven by the
orchestration script with no configured confidence_threshold, the
resolved threshold is 0.8, so a voxel whose STAPLE probability is 0.6
(strictly above 0.5) is emitted as background, contradicting the claim
that the base output is 1 exactly when the probability exceeds 0.5. -/
theorem C1_base_threshold_counterexample :
    createStapleConsensus (constOps (fun _ => [3 / 5]))
        ⟨⟨[1, 1, 1], [1, 1, 1]⟩, [0]⟩
        [some ⟨⟨[1, 1, 1], [1, 1, 1]⟩, [1]⟩, some ⟨⟨[1, 1, 1], [1, 1, 1]⟩, [1]⟩]
        (resolveConfidenceThreshold none) false false false = .ok (some [0]) ∧
      (1 : ℚ) / 2 < 3 / 5 := by
  constructor
  · decide
  · decide

/-- C2 counterexample: a mask whose spacing differs from the reference
spacing 1 by 0.1000005 percent, beyond the claimed 0.1 percent relative
tolerance, is nevertheless accepted by verify_spatial_consistency, because
np.allclose adds its default absolute tolerance 1e-8. -/
theorem C2_spatial_validation_counterexample :
    verifySpatialConsistency ⟨[2, 2, 2], [1, 1, 1]⟩
        [⟨[2, 2, 2], [1 + 1000005 / 1000000000, 1, 1]⟩] = .ok () ∧
      ¬ (|(1 + 1000005 / 1000000000 : ℚ) - 1| ≤ (1 / 1000) * |(1 : ℚ)|) := by
  constructor
  · decide
  · decide

/-- C4 counterexample: with every rater all-background the candidate
region is empty, yet the adaptive thresholder does not fall back to the
fixed threshold: every voxel is compared against mean plus std of the
whole volume (0.9), so a probability map constant at 0.9 yields
all-background, while the fixed 0.5 threshold yields all-foreground. -/
theorem C4_empty_region_counterexample :
    adaptiveStapleThreshold [9 / 10, 9 / 10] [[0, 0], [0, 0]] = [0, 0] ∧
      fixedThreshold [9 / 10, 9 / 10] (1 / 2) = [1, 1] := by
  constructor
  · decide
  · decide

/-- C5 counterexample: with radius 1 mm, minimum length 5 mm and unit
spacing, the cylinder volume is about 15.708 voxels; the code truncates
the minimum object size to 15 and keeps a 15-voxel component, while the
claimed rounding gives 16 and would remove it. -/
theorem C5_enhancement_counterexample :
    enhanceVesselConnectivity (constOps (fun _ => [])) (List.replicate 15 1)
        [1, 1, 1] 1 5 = List.replicate 15 1 ∧
      specEnhanceRound (constOps (fun _ => [])) (List.replicate 15 1)
        [1, 1, 1] 1 5 = List.replicate 15 0 := by
  constructor
  · decide
  · decide

/-- C6: the claim (and the spec) state volume_mm3 = voxel_count times the
product of the spacing, but the code multiplies GetPhysicalSize, which is
already the physical volume, by the voxel volume a second time: a single
voxel at spacing (2,2,2) mm is reported as 64 cubic millimetres instead
of 8. -/
theorem C6_component_volume_bug :
    componentVolumeMm3 1 [2, 2, 2] = 64 ∧ specComponentVolume 1 [2, 2, 2] = 8 ∧
      componentVolumeMm3 1 [2, 2, 2] ≠ specComponentVolume 1 [2, 2, 2] := by
  refine ⟨by decide, by decide, by decide⟩

/-- C7 counterexample: on the raw values 0, 1, 1.1 (three distinct values,
so the 1.1 cut applies) the code maps the voxel with value exactly 1.1 to
foreground, because sitk.BinaryThreshold includes its lower threshold,
while the claimed strict cut maps it to background. -/
theorem C7_normalization_counterexample :
    convertToBinaryMask [0, 1, 11 / 10] = [0, 0, 1] ∧
      specConvertStrict [0, 1, 11 / 10] = [0, 0, 0] := by
  constructor
  · decide
  · decide

/-- C8 counterexample: two mask paths are supplied but only one resolves;
the pipeline does not raise InsufficientRatersError, it silently skips the
missing file and produces a consensus from the single remaining rater. -/
theorem C8_insufficient_raters_counterexample :
    createStapleConsensus (constOps (fun _ => [1 / 2]))
        ⟨⟨[1, 1, 1], [1, 1, 1]⟩, [0]⟩
        [some ⟨⟨[1, 1, 1], [1, 1, 1]⟩, [1]⟩, none] (1 / 2) false false false =
      .ok (some [0]) := by
  decide

theorem castGt0_mem (vals : List ℚ) : ∀ x ∈ castGt0 vals, x = 0 ∨ x = 1 := by
  intro x hx
  rcases List.mem_map.mp hx with ⟨v, _, hv⟩
  by_cases h : (0 : ℚ) < v
  · right; rw [← hv]; simp [h]
  · left; rw [← hv]; simp [h]

theorem convertToBinaryMask_mem (vals : List ℚ) :
    ∀ x ∈ convertToBinaryMask vals, x = 0 ∨ x = 1 := by
  unfold convertToBinaryMask
  split
  · exact castGt0_mem _
  · exact castGt0_mem _

theorem convertToBinaryMask_length (vals : List ℚ) :
    (convertToBinaryMask vals).length = vals.length := by
  unfold convertToBinaryMask castGt0 binaryThreshold
  split <;> simp

theorem sorted_nodup_binary (u : List ℕ) (hs : u.Sorted (· ≤ ·)) (hn : u.Nodup)
    (hb : ∀ x ∈ u, x = 0 ∨ x = 1) (hne : u ≠ []) :
    u = [0] ∨ u = [1] ∨ u = [0, 1] := by
  match u with
  | [] => exact absurd rfl hne
  | [a] =>
    rcases hb a (by simp) with h | h
    · left; rw [h]
    · right; left; rw [h]
  | a :: b :: t =>
    have hab : a ≤ b := (List.sorted_cons.mp hs).1 b (by simp)
    have hanb : a ≠ b := by
      intro h
      exact (List.nodup_cons.mp hn).1 (h ▸ List.mem_cons_self b t)
    rcases hb a (by simp) with ha | ha <;> rcases hb b (by simp) with hbv | hbv
    · exact absurd (ha.trans hbv.symm) hanb
    · have ht : t = [] := by
        match t with
        | [] => rfl
        | c :: t2 =>
          rcases hb c (by simp) with hc | hc
          · have hbc : b ≤ c := (List.sorted_cons.mp (List.sorted_cons.mp hs).2).1 c (by simp)
            rw [hbv, hc] at hbc
            omega
          · have : b ≠ c :=
              fun h => (List.nodup_cons.mp (List.nodup_cons.mp hn).2).1 (h ▸ List.mem_cons_self c t2)
            rw [hbv, hc] at this
            exact absurd rfl this
      right; right; rw [ha, hbv, ht]
    · rw [ha, hbv] at hab; omega
    · exact absurd (ha.trans hbv.symm) hanb

theorem npUniqueN_cases (m : List ℕ) (hm : ∀ x ∈ m, x = 0 ∨ x = 1) (hne : m ≠ []) :
    npUniqueN m = [0] ∨ npUniqueN m = [1] ∨ npUniqueN m = [0, 1] := by
  have hperm := List.perm_insertionSort (· ≤ ·) m
  refine sorted_nodup_binary _ ?_ (List.nodup_dedup _) ?_ ?_
  · exact List.Pairwise.sublist (List.dedup_sublist _) (List.sorted_insertionSort _ m)
  · intro x hx
    exact hm x (hperm.mem_iff.mp (List.mem_dedup.mp hx))
  · intro h
    exact hne (List.Perm.eq_nil (List.Perm.symm (((List.dedup_eq_nil _).mp h) ▸ hperm)))

theorem normalizedMaskVerify (vals : List ℚ) (hne : vals ≠ []) :
    verifySegmentationValues (convertToBinaryMask vals) = .ok () ∧
      (npUniqueN (convertToBinaryMask vals)).length ≤ 2 := by
  have hmem := convertToBinaryMask_mem vals
  have hlen : convertToBinaryMask vals ≠ [] := by
    intro h
    have := convertToBinaryMask_length vals
    rw [h] at this
    exact hne (List.length_eq_zero.mp this.symm)
  rcases npUniqueN_cases _ hmem hlen with h | h | h <;>
    constructor <;> simp [verifySegmentationValues, h]

/-- C10: normalization always emits a mask with values in 0 and 1 only,
so verify_segmentation_values, invoked by the pipeline on the normalized
mask, always succeeds: the non-binary error branch is unreachable and
InvalidMaskError can never actually be raised by the pipeline (volumes
are nonempty: a readable image has at least one voxel). -/
theorem C10_normalized_binary (vals : List ℚ) (hne : vals ≠ []) :
    (∀ x ∈ convertToBinaryMask vals, x = 0 ∨ x = 1) ∧
      verifySegmentationValues (convertToBinaryMask vals) = .ok () := by
  exact ⟨convertToBinaryMask_mem vals, (normalizedMaskVerify vals hne).1⟩

/-- Witness for C10 at the concrete raw volume with values 0 and 3. -/
theorem C10_normalized_binary_witness :
    (∀ x ∈ convertToBinaryMask [0, 3], x = 0 ∨ x = 1) ∧
      verifySegmentationValues (convertToBinaryMask [0, 3]) = .ok () :=
  C10_normalized_binary [0, 3] (by decide)

/-- C7 as amended: on a nonempty raw label volume with more than two
distinct values the cut at 1.1 is inclusive (foreground iff the value is
at least 1.1, not strictly greater); otherwise foreground iff the value
is positive; and validation of the normalized mask succeeds exactly when
at most two distinct values remain after the cut (both sides always
hold). -/
theorem C7_normalization_amended (vals : List ℚ) (hne : vals ≠ []) :
    convertToBinaryMask vals = specConvertGe vals ∧
      (verifySegmentationValues (convertToBinaryMask vals) = .ok () ↔
        (npUniqueN (convertToBinaryMask vals)).length ≤ 2) := by
  constructor
  · unfold convertToBinaryMask specConvertGe castGt0 binaryThreshold
    split
    · rw [List.map_map]
      refine List.map_congr_left ?_
      intro v _
      by_cases h : 11 / 10 ≤ v <;> simp [h]
    · rfl
  · have h := normalizedMaskVerify vals hne
    exact iff_of_true h.1 h.2

/-- Witness for C7 at the raw values 0, 2, 5 (three distinct values). -/
theorem C7_normalization_amended_witness :
    convertToBinaryMask [0, 2, 5] = specConvertGe [0, 2, 5] ∧
      (verifySegmentationValues (convertToBinaryMask [0, 2, 5]) = .ok () ↔
        (npUniqueN (convertToBinaryMask [0, 2, 5])).length ≤ 2) :=
  C7_normalization_amended [0, 2, 5] (by decide)

theorem npAllclose_iff (a b : List ℚ) :
    npAllclose a b = true ↔
      (a.length = b.length ∧ ∀ j, j < b.length →
        |nth 0 a j - nth 0 b j| ≤ 1 / 100000000 + (1 / 1000) * |nth 0 b j|) := by
  induction a generalizing b with
  | nil =>
    cases b with
    | nil => simp [npAllclose]
    | cons y ys => simp [npAllclose]
  | cons x xs ih =>
    cases b with
    | nil => simp [npAllclose]
    | cons y ys =>
      have hrec := ih ys
      constructor
      · intro h
        have h1 : xs.length = ys.length ∧
            decide (|x - y| ≤ 1 / 100000000 + (1 / 1000) * |y|) = true ∧
            (List.zip xs ys).all
              (fun p => decide (|p.1 - p.2| ≤ 1 / 100000000 + (1 / 1000) * |p.2|)) = true := by
          unfold npAllclose at h
          simp only [List.zip, List.zipWith_cons_cons, List.all_cons, Bool.and_eq_true,
            decide_eq_true_eq, List.length_cons] at h
          exact ⟨by omega, by simpa using h.2.1, by simpa [List.zip] using h.2.2⟩
        have hxs : npAllclose xs ys = true := by
          unfold npAllclose
          simp only [Bool.and_eq_true, decide_eq_true_eq]
          exact ⟨h1.1, h1.2.2⟩
        have hall := hrec.mp hxs
        refine ⟨by simp [h1.1], ?_⟩
        intro j hj
        cases j with
        | zero => simpa using h1.2.1
        | succ k =>
          have hk : k < ys.length := by simpa using Nat.lt_of_succ_lt_succ hj
          simpa [nth] using hall.2 k hk
      · intro h
        have hlen : xs.length = ys.length := by simpa using h.1
        have h0 := h.2 0 (by simp)
        have hrest : ∀ j, j < ys.length →
            |nth 0 xs j - nth 0 ys j| ≤ 1 / 100000000 + (1 / 1000) * |nth 0 ys j| := by
          intro j hj
          simpa [nth] using h.2 (j + 1) (by simpa using Nat.succ_lt_succ hj)
        have hxs := hrec.mpr ⟨hlen, hrest⟩
        unfold npAllclose at hxs ⊢
        simp only [Bool.and_eq_true, decide_eq_true_eq] at hxs ⊢
        refine ⟨by simp [hlen], ?_⟩
        simp only [List.zip, List.zipWith_cons_cons, List.all_cons, Bool.and_eq_true]
        exact ⟨by simpa [nth] using h0, by simpa [List.zip] using hxs.2⟩

theorem checkSeg_ok_iff (ref m : Meta) :
    checkSeg ref m = .ok () ↔
      (m.size = ref.size ∧ npAllclose m.spacing ref.spacing = true) := by
  unfold checkSeg
  by_cases h1 : m.size = ref.size
  · by_cases h2 : npAllclose m.spacing ref.spacing = true
    · simp [h1, h2]
    · simp [h1, h2]
  · simp [h1]

theorem checkAllSegs_ok_iff (ref : Meta) (segs : List Meta) :
    checkAllSegs ref segs = .ok () ↔ ∀ m ∈ segs, checkSeg ref m = .ok () := by
  induction segs with
  | nil => simp [checkAllSegs]
  | cons m rest ih =>
    unfold checkAllSegs
    cases hm : checkSeg ref m with
    | error e =>
      simp only [List.mem_cons]
      constructor
      · intro hc; exact absurd hc (by simp)
      · intro hc
        have := hc m (Or.inl rfl)
        rw [hm] at this
        exact absurd this (by simp)
    | ok u =>
      cases u
      simp only [List.mem_cons, ih]
      constructor
      · intro hc p hp
        rcases hp with hp | hp
        · rw [hp]; exact hm
        · exact hc p hp
      · intro hc; exact fun p hp => hc p (Or.inr hp)

/-- C2 as amended: for a 3D reference and a nonempty, well-formed rater
set (spacing tuples as long as the size tuples, as for any real image),
verify_spatial_consistency succeeds exactly when every mask has the
reference voxel dimensions and every spacing component is within the
numpy allclose envelope of the reference: 1e-8 absolute tolerance plus
0.1 percent of the reference component (not the purely relative 0.1
percent of the claim); it is a pure function, so success has no side
effect on any input. -/
theorem C2_spatial_validation_amended (ref : Meta) (segs : List Meta)
    (h3 : ref.size.length = 3) (hne : segs ≠ [])
    (hwr : ref.spacing.length = ref.size.length)
    (hwm : ∀ m ∈ segs, m.spacing.length = m.size.length) :
    verifySpatialConsistency ref segs = .ok () ↔ ∀ m ∈ segs, specSpatialOK ref m := by
  unfold verifySpatialConsistency
  rw [if_neg hne, if_neg (by omega)]
  rw [checkAllSegs_ok_iff]
  constructor
  · intro h m hm
    have hc := (checkSeg_ok_iff ref m).mp (h m hm)
    refine ⟨hc.1, ?_⟩
    intro j hj
    exact ((npAllclose_iff m.spacing ref.spacing).mp hc.2).2 j hj
  · intro h m hm
    have hc := h m hm
    refine (checkSeg_ok_iff ref m).mpr ⟨hc.1, ?_⟩
    refine (npAllclose_iff m.spacing ref.spacing).mpr ⟨?_, hc.2⟩
    rw [hwm m hm, hc.1, ← hwr]

/-- Witness for C2: a congruent single-mask rater set validates. -/
theorem C2_spatial_validation_amended_witness :
    verifySpatialConsistency ⟨[4, 4, 4], [1, 1, 2]⟩ [⟨[4, 4, 4], [1, 1, 2]⟩] = .ok () ↔
      ∀ m ∈ [(⟨[4, 4, 4], [1, 1, 2]⟩ : Meta)], specSpatialOK ⟨[4, 4, 4], [1, 1, 2]⟩ m :=
  C2_spatial_validation_amended ⟨[4, 4, 4], [1, 1, 2]⟩ [⟨[4, 4, 4], [1, 1, 2]⟩]
    (by decide) (by decide) (by decide) (by decide)

/-- C5 as amended: vessel enhancement closes with kernel radius
round(radius / min spacing) and zeroes out every component whose voxel
count is below the truncated (not rounded) cylinder-volume cutoff
int(pi * radius^2 * minLength / voxelVolume), for every positive
spacing. -/
theorem C5_enhancement_amended (ops : SitkOps) (mask : List ℕ) (spacing : List ℚ)
    (radiusMm minLengthMm : ℚ) (_hsp : ∀ x ∈ spacing, 0 < x) :
    enhanceVesselConnectivity ops mask spacing radiusMm minLengthMm =
      specEnhanceTrunc ops mask spacing radiusMm minLengthMm := by
  unfold enhanceVesselConnectivity specEnhanceTrunc kernelRadiusVoxels minObjectSize
  unfold relabelRemoveSmallBinary
  refine List.map_congr_left ?_
  intro l _
  by_cases hz : l = 0
  · simp [hz]
  · by_cases hc : ratTrunc (piQ * radiusMm ^ 2 * minLengthMm / prodQ spacing) ≤
        (countLabel (ops.connectedComponents
          (ops.erode (pyRound (radiusMm / minListQ spacing))
            (ops.dilate (pyRound (radiusMm / minListQ spacing)) mask))) l : ℤ)
    · simp [hz, hc, Int.not_lt.mpr hc]
    · simp [hz, hc, Int.not_le.mp hc]

/-- Witness for C5 at a single-voxel mask with unit spacing. -/
theorem C5_enhancement_amended_witness :
    enhanceVesselConnectivity (constOps (fun _ => [])) [1] [1, 1, 1] 1 5 =
      specEnhanceTrunc (constOps (fun _ => [])) [1] [1, 1, 1] 1 5 :=
  C5_enhancement_amended (constOps (fun _ => [])) [1] [1, 1, 1] 1 5 (by decide)

/-- C8 as amended: create_staple_consensus raises the insufficient-raters
error exactly when fewer than two mask paths are supplied; with two or
more supplied paths that error is never raised, whatever resolves
(missing paths are skipped, an empty remainder returns None without
error, a single readable mask is processed normally). -/
theorem C8_insufficient_raters_amended (ops : SitkOps) (orig : Img)
    (paths : List (Option Img)) (t : ℚ) (doPre doAdapt doEnh : Bool) :
    (paths.length < 2 →
      createStapleConsensus ops orig paths t doPre doAdapt doEnh =
        .error .insufficientRaters) ∧
    (2 ≤ paths.length →
      createStapleConsensus ops orig paths t doPre doAdapt doEnh ≠
        .error .insufficientRaters) := by
  constructor
  · intro h
    unfold createStapleConsensus
    rw [if_pos h]
  · intro h
    unfold createStapleConsensus
    rw [if_neg (by omega)]
    cases hr : readSegsE orig.meta paths with
    | error e => simp
    | ok segs =>
      dsimp only
      by_cases hs : segs = []
      · simp [hs]
      · rw [if_neg hs]
        cases hv : verifySpatialConsistency orig.meta (segs.map MaskImg.meta) with
        | error e => simp [hv]
        | ok u => simp [hv]

/-- Witness for C8: both directions at concrete inputs, a one-path call
raising the error and a two-path call never raising it. -/
theorem C8_insufficient_raters_amended_witness :
    createStapleConsensus (constOps (fun _ => [1 / 2])) ⟨⟨[1, 1, 1], [1, 1, 1]⟩, [0]⟩
        [none] (1 / 2) false false false = .error .insufficientRaters ∧
      createStapleConsensus (constOps (fun _ => [1 / 2])) ⟨⟨[1, 1, 1], [1, 1, 1]⟩, [0]⟩
        [none, none] (1 / 2) false false false ≠ .error .insufficientRaters :=
  ⟨(C8_insufficient_raters_amended (constOps (fun _ => [1 / 2]))
      ⟨⟨[1, 1, 1], [1, 1, 1]⟩, [0]⟩ [none] (1 / 2) false false false).1 (by decide),
   (C8_insufficient_raters_amended (constOps (fun _ => [1 / 2]))
      ⟨⟨[1, 1, 1], [1, 1, 1]⟩, [0]⟩ [none, none] (1 / 2) false false false).2 (by decide)⟩

/-- C1 as amended: with preprocessing, adaptive thresholding and
enhancement all disabled, a successful run emits exactly
ProbabilityMap > confidence_threshold per voxel, where the threshold is
the caller-supplied value; the orchestration script resolves it from
staple_params with fallback 0.8, so with no configured value the base
pass thresholds at 0.8, not 0.5. -/
theorem C1_base_threshold_amended (ops : SitkOps) (orig : Img)
    (paths : List (Option Img)) (configured : Option ℚ) (segs : List MaskImg)
    (hn : 2 ≤ paths.length)
    (hr : readSegsE orig.meta paths = .ok segs)
    (hne : segs ≠ [])
    (hs : verifySpatialConsistency orig.meta (segs.map MaskImg.meta) = .ok ()) :
    createStapleConsensus ops orig paths (resolveConfidenceThreshold configured)
        false false false =
      .ok (some (fixedThreshold (ops.staple (segs.map MaskImg.data))
        (resolveConfidenceThreshold configured))) ∧
    resolveConfidenceThreshold none = 4 / 5 := by
  constructor
  · unfold createStapleConsensus
    rw [if_neg (by omega), hr]
    dsimp only
    rw [if_neg hne, hs]
    dsimp only
    unfold consensusBinary pipelinePreData thresholdStage
    simp
  · rfl

/-- Witness for C1: a concrete successful base run at threshold 0.8. -/
theorem C1_base_threshold_amended_witness :
    createStapleConsensus (constOps (fun _ => [7 / 10])) ⟨⟨[1, 1, 1], [1, 1, 1]⟩, [0]⟩
        [some ⟨⟨[1, 1, 1], [1, 1, 1]⟩, [1]⟩, some ⟨⟨[1, 1, 1], [1, 1, 1]⟩, [1]⟩]
        (resolveConfidenceThreshold none) false false false =
      .ok (some (fixedThreshold [7 / 10] (resolveConfidenceThreshold none))) ∧
    resolveConfidenceThreshold none = 4 / 5 :=
  C1_base_threshold_amended (constOps (fun _ => [7 / 10])) ⟨⟨[1, 1, 1], [1, 1, 1]⟩, [0]⟩
    [some ⟨⟨[1, 1, 1], [1, 1, 1]⟩, [1]⟩, some ⟨⟨[1, 1, 1], [1, 1, 1]⟩, [1]⟩] none
    [⟨⟨[1, 1, 1], [1, 1, 1]⟩, [1]⟩, ⟨⟨[1, 1, 1], [1, 1, 1]⟩, [1]⟩]
    (by decide) (by decide) (by decide) (by decide)

/-- C9: when the vessel-statistics analysis fails (for example because a
preprocessed rater mask has zero connected components, making np.min of
the empty volume list raise), the pipeline does not abort: the run with
enhancement enabled produces exactly the run with enhancement disabled,
so the thresholding-stage consensus is persisted unchanged. -/
theorem C9_enhancement_failure_preserved (ops : SitkOps) (orig : Img)
    (paths : List (Option Img)) (t : ℚ) (doPre doAdapt : Bool) (segs : List MaskImg)
    (hr : readSegsE orig.meta paths = .ok segs)
    (ha : analyzeVesselCharacteristics ops
        (pipelinePreData ops doPre (segs.map MaskImg.data)) orig.meta.spacing =
      .error ()) :
    createStapleConsensus ops orig paths t doPre doAdapt true =
      createStapleConsensus ops orig paths t doPre doAdapt false := by
  unfold createStapleConsensus
  by_cases h2 : paths.length < 2
  · rw [if_pos h2, if_pos h2]
  · rw [if_neg h2, if_neg h2, hr]
    dsimp only
    by_cases hs : segs = []
    · rw [if_pos hs, if_pos hs]
    · rw [if_neg hs, if_neg hs]
      cases hv : verifySpatialConsistency orig.meta (segs.map MaskImg.meta) with
      | error e => rfl
      | ok u =>
        dsimp only
        unfold consensusBinary
        simp [ha]

/-- Witness for C9: a connected-component labelling that returns only
background labels makes the analysis fail, and both runs coincide. -/
theorem C9_enhancement_failure_preserved_witness :
    createStapleConsensus
        ⟨(fun _ => [1]), id, (fun _ m => m), (fun _ m => m),
          (fun m => m.map (fun _ => 0)), (fun _ _ => [1])⟩
        ⟨⟨[1, 1, 1], [1, 1, 1]⟩, [0]⟩
        [some ⟨⟨[1, 1, 1], [1, 1, 1]⟩, [1]⟩, some ⟨⟨[1, 1, 1], [1, 1, 1]⟩, [1]⟩]
        (1 / 2) false false true =
      createStapleConsensus
        ⟨(fun _ => [1]), id, (fun _ m => m), (fun _ m => m),
          (fun m => m.map (fun _ => 0)), (fun _ _ => [1])⟩
        ⟨⟨[1, 1, 1], [1, 1, 1]⟩, [0]⟩
        [some ⟨⟨[1, 1, 1], [1, 1, 1]⟩, [1]⟩, some ⟨⟨[1, 1, 1], [1, 1, 1]⟩, [1]⟩]
        (1 / 2) false false false :=
  C9_enhancement_failure_preserved
    ⟨(fun _ => [1]), id, (fun _ m => m), (fun _ m => m),
      (fun m => m.map (fun _ => 0)), (fun _ _ => [1])⟩
    ⟨⟨[1, 1, 1], [1, 1, 1]⟩, [0]⟩
    [some ⟨⟨[1, 1, 1], [1, 1, 1]⟩, [1]⟩, some ⟨⟨[1, 1, 1], [1, 1, 1]⟩, [1]⟩]
    (1 / 2) false false
    [⟨⟨[1, 1, 1], [1, 1, 1]⟩, [1]⟩, ⟨⟨[1, 1, 1], [1, 1, 1]⟩, [1]⟩]
    (by decide) (by decide)

theorem vesselFold_length (n : ℕ) (segs : List (List ℕ)) (acc : List ℕ)
    (hacc : acc.length = n) (hlen : ∀ s ∈ segs, s.length = n) :
    (segs.foldl (fun a s => List.zipWith (fun x y => x + y) a s) acc).length = n := by
  induction segs generalizing acc with
  | nil => simpa using hacc
  | cons s rest ih =>
    rw [List.foldl_cons]
    refine ih _ ?_ (fun s2 hs2 => hlen s2 (List.mem_cons_of_mem _ hs2))
    rw [List.length_zipWith, hacc, hlen s (List.mem_cons_self s rest)]
    exact Nat.min_self n

theorem vesselSum_length (n : ℕ) (segs : List (List ℕ))
    (hlen : ∀ s ∈ segs, s.length = n) : (vesselSum n segs).length = n :=
  vesselFold_length n segs _ (by simp) hlen

theorem vesselFold_nth (n i : ℕ) (hi : i < n) (segs : List (List ℕ)) (acc : List ℕ)
    (hacc : acc.length = n) (hlen : ∀ s ∈ segs, s.length = n) :
    nth 0 (segs.foldl (fun a s => List.zipWith (fun x y => x + y) a s) acc) i =
      nth 0 acc i + (segs.map (fun s => nth 0 s i)).sum := by
  induction segs generalizing acc with
  | nil => simp
  | cons s rest ih =>
    have hzl : (List.zipWith (fun x y => x + y) acc s).length = n := by
      rw [List.length_zipWith, hacc, hlen s (List.mem_cons_self s rest)]
      exact Nat.min_self n
    rw [List.foldl_cons]
    rw [ih _ hzl (fun s2 hs2 => hlen s2 (List.mem_cons_of_mem _ hs2))]
    rw [nth_zipWith 0 0 0 _ acc s i (by rw [hacc]; exact hi)
        (by rw [hlen s (List.mem_cons_self s rest)]; exact hi)]
    rw [List.map_cons, List.sum_cons]
    omega

theorem vesselSum_nth (segs : List (List ℕ)) (n i : ℕ) (hi : i < n)
    (hlen : ∀ s ∈ segs, s.length = n) :
    nth 0 (vesselSum n segs) i = (segs.map (fun s => nth 0 s i)).sum := by
  unfold vesselSum
  rw [vesselFold_nth n i hi segs _ (by simp) hlen, nth_replicate 0 0 n i hi]
  omega

theorem vesselMask_length (prob : List ℚ) (segs : List (List ℕ))
    (hlen : ∀ s ∈ segs, s.length = prob.length) :
    (vesselMask prob segs).length = prob.length := by
  unfold vesselMask
  rw [List.length_map, vesselSum_length _ _ hlen]

theorem vesselMask_nth (prob : List ℚ) (segs : List (List ℕ)) (i : ℕ)
    (hi : i < prob.length) (hlen : ∀ s ∈ segs, s.length = prob.length) :
    nth false (vesselMask prob segs) i = decide (∃ s ∈ segs, 0 < nth 0 s i) := by
  unfold vesselMask
  rw [nth_map 0 false _ _ i (by rw [vesselSum_length _ _ hlen]; exact hi)]
  rw [vesselSum_nth segs _ i hi hlen]
  rw [decide_eq_decide]
  rw [Nat.pos_iff_ne_zero, Ne, List.sum_eq_zero_iff]
  push_neg
  constructor
  · rintro ⟨x, hx, hxne⟩
    rcases List.mem_map.mp hx with ⟨s, hs, rfl⟩
    exact ⟨s, hs, Nat.pos_of_ne_zero hxne⟩
  · rintro ⟨s, hs, hpos⟩
    exact ⟨nth 0 s i, List.mem_map_of_mem _ hs, Nat.pos_iff_ne_zero.mp hpos⟩

theorem maskSelect_of_all_false (mask : List Bool) (xs : List ℚ)
    (h : ∀ b ∈ mask, b = false) : maskSelect mask xs = [] := by
  induction mask generalizing xs with
  | nil => rfl
  | cons b ms ih =>
    cases xs with
    | nil => rfl
    | cons x xr =>
      have hb := h b (List.mem_cons_self b ms)
      unfold maskSelect
      rw [List.zip_cons_cons, List.filterMap_cons]
      rw [hb]
      exact ih xr (fun b2 hb2 => h b2 (List.mem_cons_of_mem _ hb2))

theorem maskSelect_of_all_true (mask : List Bool) (xs : List ℚ)
    (hlen : mask.length = xs.length) (h : ∀ b ∈ mask, b = true) :
    maskSelect mask xs = xs := by
  induction mask generalizing xs with
  | nil =>
    cases xs with
    | nil => rfl
    | cons x xr => simp at hlen
  | cons b ms ih =>
    cases xs with
    | nil => simp at hlen
    | cons x xr =>
      have hb := h b (List.mem_cons_self b ms)
      unfold maskSelect
      rw [List.zip_cons_cons, List.filterMap_cons]
      rw [hb]
      have := ih xr (by simpa using hlen) (fun b2 hb2 => h b2 (List.mem_cons_of_mem _ hb2))
      unfold maskSelect at this
      simp [this]

theorem zipWith_const_mask {γ : Type} (f : Bool → ℚ → γ) (c : Bool) (mask : List Bool)
    (xs : List ℚ) (hlen : mask.length = xs.length) (h : ∀ b ∈ mask, b = c) :
    List.zipWith f mask xs = xs.map (f c) := by
  induction mask generalizing xs with
  | nil =>
    cases xs with
    | nil => rfl
    | cons x xr => simp at hlen
  | cons b ms ih =>
    cases xs with
    | nil => simp at hlen
    | cons x xr =>
      rw [List.zipWith_cons_cons, List.map_cons, h b (List.mem_cons_self b ms),
        ih xr (by simpa using hlen) (fun b2 hb2 => h b2 (List.mem_cons_of_mem _ hb2))]

theorem zipWith_add_all_zero (a s : List ℕ) (ha : ∀ x ∈ a, x = 0)
    (hs : ∀ x ∈ s, x = 0) :
    ∀ x ∈ List.zipWith (fun u v => u + v) a s, x = 0 := by
  induction a generalizing s with
  | nil => intro x hx; simp at hx
  | cons y ys ih =>
    cases s with
    | nil => intro x hx; simp at hx
    | cons z zs =>
      intro x hx
      rw [List.zipWith_cons_cons] at hx
      rcases List.mem_cons.mp hx with h | h
      · rw [h, ha y (List.mem_cons_self y ys), hs z (List.mem_cons_self z zs)]
      · exact ih zs (fun u hu => ha u (List.mem_cons_of_mem _ hu))
          (fun u hu => hs u (List.mem_cons_of_mem _ hu)) x h

theorem vesselFold_all_zero (segs : List (List ℕ)) (acc : List ℕ)
    (hacc : ∀ x ∈ acc, x = 0) (h0 : ∀ s ∈ segs, ∀ x ∈ s, x = 0) :
    ∀ x ∈ segs.foldl (fun a s => List.zipWith (fun u v => u + v) a s) acc, x = 0 := by
  induction segs generalizing acc with
  | nil => simpa using hacc
  | cons s rest ih =>
    rw [List.foldl_cons]
    exact ih _ (zipWith_add_all_zero acc s hacc (h0 s (List.mem_cons_self s rest)))
      (fun s2 hs2 => h0 s2 (List.mem_cons_of_mem _ hs2))

theorem vesselMask_all_false (prob : List ℚ) (segs : List (List ℕ))
    (h0 : ∀ s ∈ segs, ∀ x ∈ s, x = 0) :
    ∀ b ∈ vesselMask prob segs, b = false := by
  intro b hb
  rcases List.mem_map.mp hb with ⟨x, hx, rfl⟩
  have hx0 : x = 0 := vesselFold_all_zero segs _ (by simp) h0 x hx
  simp [hx0]

theorem forall_mem_of_nth (d : α) (l : List α) (c : α)
    (h : ∀ i, i < l.length → nth d l i = c) : ∀ b ∈ l, b = c := by
  induction l with
  | nil => intro b hb; simp at hb
  | cons x xs ih =>
    intro b hb
    rcases List.mem_cons.mp hb with rfl | hb2
    · exact h 0 (by simp)
    · refine ih ?_ b hb2
      intro i hi2
      exact h (i + 1) (by simpa using Nat.succ_lt_succ hi2)

theorem computeOptimalThresholds_eq (prob : List ℚ) (segs : List (List ℕ))
    (hc : maskSelect (vesselMask prob segs) prob ≠ [])
    (hb : maskSelect ((vesselMask prob segs).map not) prob ≠ []) :
    computeOptimalThresholds prob segs =
      (some (meanQ (maskSelect (vesselMask prob segs) prob) -
             stdQ (maskSelect (vesselMask prob segs) prob)),
       some (meanQ (maskSelect ((vesselMask prob segs).map not) prob) +
             stdQ (maskSelect ((vesselMask prob segs).map not) prob))) := by
  unfold computeOptimalThresholds
  simp [meanOpt, stdOpt, optSub, optAdd, hc, hb]

/-- C3: in adaptive mode, with candidate the voxels foreground in the
logical OR of the rater masks and background its complement, a voxel is
emitted foreground exactly when it is a candidate with probability above
mean minus std of the candidate probabilities, or a background voxel with
probability above mean plus std of the background probabilities, whenever
both regions are nonempty. -/
theorem C3_adaptive_rule (prob : List ℚ) (segs : List (List ℕ))
    (hlen : ∀ s ∈ segs, s.length = prob.length)
    (hc : maskSelect (vesselMask prob segs) prob ≠ [])
    (hb : maskSelect ((vesselMask prob segs).map not) prob ≠ [])
    (i : ℕ) (hi : i < prob.length) :
    nth 0 (adaptiveStapleThreshold prob segs) i = 1 ↔
      (((∃ s ∈ segs, 0 < nth 0 s i) ∧
          meanQ (maskSelect (vesselMask prob segs) prob) -
            stdQ (maskSelect (vesselMask prob segs) prob) < nth 0 prob i) ∨
        ((¬ ∃ s ∈ segs, 0 < nth 0 s i) ∧
          meanQ (maskSelect ((vesselMask prob segs).map not) prob) +
            stdQ (maskSelect ((vesselMask prob segs).map not) prob) < nth 0 prob i)) := by
  unfold adaptiveStapleThreshold
  dsimp only
  rw [computeOptimalThresholds_eq prob segs hc hb]
  rw [nth_zipWith false 0 0 _ _ _ i
    (by rw [vesselMask_length prob segs hlen]; exact hi) hi]
  rw [vesselMask_nth prob segs i hi hlen]
  by_cases hE : ∃ s ∈ segs, 0 < nth 0 s i
  · by_cases hlt : meanQ (maskSelect (vesselMask prob segs) prob) -
        stdQ (maskSelect (vesselMask prob segs) prob) < nth 0 prob i
    · simp [hE, hlt, optLt]
    · simp [hE, hlt, optLt]
  · by_cases hlt : meanQ (maskSelect ((vesselMask prob segs).map not) prob) +
        stdQ (maskSelect ((vesselMask prob segs).map not) prob) < nth 0 prob i
    · simp [hE, hlt, optLt]
    · simp [hE, hlt, optLt]

/-- Witness for C3 on a two-voxel map whose single rater marks the first
voxel: both regions are nonempty and the rule evaluates at voxel 0. -/
theorem C3_adaptive_rule_witness :
    nth 0 (adaptiveStapleThreshold [1, 0] [[1, 0]]) 0 = 1 ↔
      (((∃ s ∈ [[1, 0]], 0 < nth 0 s 0) ∧
          meanQ (maskSelect (vesselMask [1, 0] [[1, 0]]) [1, 0]) -
            stdQ (maskSelect (vesselMask [1, 0] [[1, 0]]) [1, 0]) < nth 0 [1, 0] 0) ∨
        ((¬ ∃ s ∈ [[1, 0]], 0 < nth 0 s 0) ∧
          meanQ (maskSelect ((vesselMask [1, 0] [[1, 0]]).map not) [1, 0]) +
            stdQ (maskSelect ((vesselMask [1, 0] [[1, 0]]).map not) [1, 0]) <
              nth 0 [1, 0] 0)) :=
  C3_adaptive_rule [1, 0] [[1, 0]] (by decide) (by decide) (by decide) 0 (by decide)

/-- C4 as amended: the adaptive thresholder has no fallback to fixed-mode
thresholding. If the candidate region is empty (all raters
all-background) every voxel is compared against mean plus std of the
whole volume, the background statistics; if the background region is
empty (every voxel is a candidate) every voxel is compared against mean
minus std of the whole volume, the candidate statistics. -/
theorem C4_empty_region_amended (prob : List ℚ) (segs : List (List ℕ))
    (hlen : ∀ s ∈ segs, s.length = prob.length) :
    ((∀ s ∈ segs, ∀ x ∈ s, x = 0) →
      adaptiveStapleThreshold prob segs =
        prob.map (fun p => if meanQ prob + stdQ prob < p then 1 else 0)) ∧
    ((∀ i, i < prob.length → ∃ s ∈ segs, 0 < nth 0 s i) →
      adaptiveStapleThreshold prob segs =
        prob.map (fun p => if meanQ prob - stdQ prob < p then 1 else 0)) := by
  have hmlen := vesselMask_length prob segs hlen
  constructor
  · intro h0
    have hmf := vesselMask_all_false prob segs h0
    have hmt : ∀ b ∈ (vesselMask prob segs).map not, b = true := by
      intro b hb
      rcases List.mem_map.mp hb with ⟨c, hc, rfl⟩
      rw [hmf c hc]
      rfl
    have hvp := maskSelect_of_all_false (vesselMask prob segs) prob hmf
    have hnvp := maskSelect_of_all_true ((vesselMask prob segs).map not) prob
      (by rw [List.length_map, hmlen]) hmt
    unfold adaptiveStapleThreshold
    dsimp only
    rw [zipWith_const_mask _ false _ _ hmlen hmf]
    by_cases hpe : prob = []
    · rw [hpe]
      rfl
    · have ht2 : (computeOptimalThresholds prob segs).2 =
          some (meanQ prob + stdQ prob) := by
        unfold computeOptimalThresholds
        dsimp only
        rw [hnvp]
        simp [meanOpt, stdOpt, optAdd, hpe]
      refine List.map_congr_left ?_
      intro p _
      simp [ht2, optLt]
  · intro h1
    have hmt : ∀ b ∈ vesselMask prob segs, b = true := by
      refine forall_mem_of_nth false _ true ?_
      intro j hj
      rw [hmlen] at hj
      rw [vesselMask_nth prob segs j hj hlen]
      exact decide_eq_true (h1 j hj)
    have hmf : ∀ b ∈ (vesselMask prob segs).map not, b = false := by
      intro b hb
      rcases List.mem_map.mp hb with ⟨c, hc, rfl⟩
      rw [hmt c hc]
      rfl
    have hvp := maskSelect_of_all_true (vesselMask prob segs) prob hmlen hmt
    have hnvp := maskSelect_of_all_false ((vesselMask prob segs).map not) prob hmf
    unfold adaptiveStapleThreshold
    dsimp only
    rw [zipWith_const_mask _ true _ _ hmlen hmt]
    by_cases hpe : prob = []
    · rw [hpe]
      rfl
    · have ht1 : (computeOptimalThresholds prob segs).1 =
          some (meanQ prob - stdQ prob) := by
        unfold computeOptimalThresholds
        dsimp only
        rw [hvp]
        simp [meanOpt, stdOpt, optSub, hpe]
      refine List.map_congr_left ?_
      intro p _
      simp [ht1, optLt]

/-- Witness for C4: both emptiness directions at concrete inputs, an
all-background rater pair and an all-foreground rater pair over a
two-voxel probability map. -/
theorem C4_empty_region_amended_witness :
    adaptiveStapleThreshold [9 / 10, 1 / 2] [[0, 0], [0, 0]] =
      [9 / 10, 1 / 2].map
        (fun p => if meanQ [9 / 10, 1 / 2] + stdQ [9 / 10, 1 / 2] < p then 1 else 0) ∧
    adaptiveStapleThreshold [9 / 10, 1 / 2] [[1, 1], [1, 1]] =
      [9 / 10, 1 / 2].map
        (fun p => if meanQ [9 / 10, 1 / 2] - stdQ [9 / 10, 1 / 2] < p then 1 else 0) :=
  ⟨(C4_empty_region_amended [9 / 10, 1 / 2] [[0, 0], [0, 0]] (by decide)).1 (by decide),
   (C4_empty_region_amended [9 / 10, 1 / 2] [[1, 1], [1, 1]] (by decide)).2 (by decide)⟩
